import Mathlib

/-!
Shallow embedding of `src/travel_agent.py` (a conversational travel-booking
orchestrator) and verification of its specification.

Modelling conventions:
* Python strings are Lean `String`s; the operations `.lower()`, `.upper()`,
  `.replace(" ", "")` and the substring operator `in` are embedded as
  functions on the underlying `List Char`.
* JSON values produced by `json.loads` (the NLU payload) are the inductive
  type `JValue`; Python dictionaries appear as association lists.
* Python exceptions (AttributeError from calling `.lower()`/`.get` on a
  non-string/non-dict value) are embedded with `Except PyError`.
* The two LLM collaborators and the reservation collaborator are boundaries:
  the interpretation outcome is an input (`InterpOutcome`), generated prose
  is represented by the context string handed to the generator, and the
  externally generated PNR confirmation code is an input parameter.
* `datetime.date` is a Gregorian date record; `timedelta(days=1)` is
  `Date.nextDay`, `strftime("%Y-%m-%d")` is `formatDate`.
-/

namespace TravelAgent

/-- Embedding of Python `str.lower()` (ASCII, as used by the program). -/
def strLower (s : String) : String := ⟨s.data.map Char.toLower⟩

/-- Embedding of Python `str.upper()` (ASCII, as used by the program). -/
def strUpper (s : String) : String := ⟨s.data.map Char.toUpper⟩

/-- Test `listStarts needle hay`: whether `hay` begins with `needle`. -/
def listStarts : List Char → List Char → Bool
  | [], _ => true
  | _ :: _, [] => false
  | a :: as, b :: bs => a == b && listStarts as bs

/-- Embedding of the Python substring test `needle in hay`. -/
def substrIn (needle : List Char) : List Char → Bool
  | [] => needle.isEmpty
  | h :: t => listStarts needle (h :: t) || substrIn needle t

/-- Substring test on `String`s. -/
def substrInStr (needle hay : String) : Bool := substrIn needle.data hay.data

/-- Normalization used by the fuzzy carrier match:
`s.lower().replace(" ", "")` — lower-case, then drop space characters. -/
def normalizeName (s : String) : List Char :=
  (s.data.map Char.toLower).filter (fun c => c ≠ ' ')

/-- JSON values as returned by `json.loads` on the NLU response
(numbers restricted to integers; the program never reads numeric slots). -/
inductive JValue where
  | null
  | str (s : String)
  | num (n : Int)
  | bool (b : Bool)
  | arr (xs : List JValue)
  | obj (fields : List (String × JValue))

/-- Python exceptions that the embedded control flow can raise. -/
inductive PyError where
  | attributeError
  deriving DecidableEq

/-- First-match association-list lookup, embedding lookup in a parsed JSON
dictionary (keys of a Python dict are unique, so first-match is exact). -/
def jlookup (fields : List (String × JValue)) (k : String) : Option JValue :=
  match fields with
  | [] => none
  | (k2, v) :: t => if k2 == k then some v else jlookup t k

/-- Embedding of Python `d.get(k, default)`: on a dict it returns the value
or the default; on any non-dict value the attribute access raises. -/
def pyGet (v : JValue) (k : String) (default : JValue) : Except PyError JValue :=
  match v with
  | .obj fields => .ok ((jlookup fields k).getD default)
  | _ => .error .attributeError

/-- Embedding of `v.lower()`: defined on strings, raises AttributeError on
any other value (in particular on `None`). -/
def pyLower (v : JValue) : Except PyError String :=
  match v with
  | .str s => .ok (strLower s)
  | _ => .error .attributeError

/-- Python truthiness (`if not date_ref: ...`) for JSON-derived values. -/
def pyFalsy : JValue → Bool
  | .null => true
  | .str s => s.data.isEmpty
  | .num n => n == 0
  | .bool b => !b
  | .arr xs => xs.isEmpty
  | .obj fs => fs.isEmpty

mutual

/-- Python `repr` of a JSON-derived value, used by f-string interpolation
of composite values. -/
def pyRepr : JValue → String
  | .null => "None"
  | .str s => "\x27" ++ s ++ "\x27"
  | .num n => toString n
  | .bool b => if b then "True" else "False"
  | .arr xs => "[" ++ pyReprList xs ++ "]"
  | .obj fs => "\x7b" ++ pyReprObj fs ++ "\x7d"

/-- Comma-separated `repr`s of list elements. -/
def pyReprList : List JValue → String
  | [] => ""
  | [x] => pyRepr x
  | x :: y :: t => pyRepr x ++ ", " ++ pyReprList (y :: t)

/-- Comma-separated `repr`s of dict entries. -/
def pyReprObj : List (String × JValue) → String
  | [] => ""
  | [(k, v)] => "\x27" ++ k ++ "\x27: " ++ pyRepr v
  | (k, v) :: y :: t => "\x27" ++ k ++ "\x27: " ++ pyRepr v ++ ", " ++ pyReprObj (y :: t)

end

/-- Python `str(v)` as used by f-string interpolation. -/
def pyStr : JValue → String
  | .str s => s
  | v => pyRepr v

/-- A calendar date, embedding `datetime.date`. -/
structure Date where
  year : Nat
  month : Nat
  day : Nat
  deriving DecidableEq

/-- Gregorian leap-year rule. -/
def isLeap (y : Nat) : Bool := (y % 4 == 0 && y % 100 != 0) || y % 400 == 0

/-- Days in a month of the Gregorian calendar. -/
def daysInMonth (y m : Nat) : Nat :=
  if m == 2 then (if isLeap y then 29 else 28)
  else if m == 4 || m == 6 || m == 9 || m == 11 then 30
  else 31

/-- Embedding of `today + datetime.timedelta(days=1)`. -/
def Date.nextDay (d : Date) : Date :=
  if d.day < daysInMonth d.year d.month then ⟨d.year, d.month, d.day + 1⟩
  else if d.month < 12 then ⟨d.year, d.month + 1, 1⟩
  else ⟨d.year + 1, 1, 1⟩

/-- Zero-pad a number to two digits, as `%m` / `%d` do. -/
def pad2 (n : Nat) : String := if n < 10 then "0" ++ toString n else toString n

/-- Embedding of `strftime("%Y-%m-%d")`. -/
def formatDate (d : Date) : String :=
  toString d.year ++ "-" ++ pad2 d.month ++ "-" ++ pad2 d.day

/-- One cached flight offer (`FlightRecord` dataclass). `origin` and
`destination` hold whatever JSON value the NLU slot carried, as the Python
code stores them without conversion. -/
structure FlightRecord where
  flight_id : String
  airline : String
  price : Nat
  raw_price : String
  departure : String
  origin : JValue
  destination : JValue

/-- One raw offer payload from the inventory collaborator, with the four
keys `update_cache` reads. -/
structure RawOffer where
  flight_id : String
  airline : String
  departure_time : String
  price : String

/-- The agent's session memory (`AgentMemory`). The Python class also holds
`last_search_context`, which is initialized empty and never written or read,
so it is omitted. -/
structure AgentMemory where
  flight_cache : List FlightRecord

/-- Digit characters of a display string, in order: what survives
`re.sub(r"[^\d]", "", s)`. -/
def digitsOf (s : String) : List Char := s.data.filter Char.isDigit

/-- Numeric value of a digit character. -/
def digitVal (c : Char) : Nat := c.toNat - 48

/-- Left-to-right decimal accumulation: `int` applied to a nonempty digit string. -/
def digitsToNat (ds : List Char) : Nat :=
  ds.foldl (fun acc c => acc * 10 + digitVal c) 0

/-- Price parsing in `update_cache`: strip non-digits and parse; `int("")`
raises ValueError, caught and replaced by the sentinel 999999. -/
def parsePrice (s : String) : Nat :=
  let ds := digitsOf s
  if ds.isEmpty then 999999 else digitsToNat ds

/-- Building one `FlightRecord` from a raw offer inside `update_cache`. -/
def buildRecord (origin dest : JValue) (f : RawOffer) : FlightRecord :=
  { flight_id := f.flight_id
    airline := f.airline
    price := parsePrice f.price
    raw_price := f.price
    departure := f.departure_time
    origin := origin
    destination := dest }

/-- Embedding of `AgentMemory.update_cache`: discards the whole previous cache and
rebuilds it from the raw offers, in order. -/
def update_cache (_mem : AgentMemory) (raw_flights : List RawOffer)
    (origin dest : JValue) : AgentMemory :=
  { flight_cache := raw_flights.map (buildRecord origin dest) }

/-- Embedding of `AgentMemory.find_flight_by_airline`: fuzzy carrier match — first cached
record whose normalized carrier name contains the normalized query. -/
def find_flight_by_airline (mem : AgentMemory) (airline_name : String) :
    Option FlightRecord :=
  let normalized_query := normalizeName airline_name
  mem.flight_cache.find? (fun flight => substrIn normalized_query (normalizeName flight.airline))

/-- Embedding of `AgentMemory.find_cheapest_flight`: Python `min(cache, key=price)` —
first element is the initial best, replaced only on strictly smaller price,
so ties keep the earlier record. -/
def find_cheapest_flight (mem : AgentMemory) : Option FlightRecord :=
  match mem.flight_cache with
  | [] => none
  | h :: t => some (t.foldl (fun best x => if x.price < best.price then x else best) h)

/-- Embedding of `AgentMemory.get_flight_by_id`: exact identifier lookup. -/
def get_flight_by_id (mem : AgentMemory) (fid : String) : Option FlightRecord :=
  mem.flight_cache.find? (fun flight => flight.flight_id == fid)

/-- The entity-resolution block of `_handle_booking` (lines 242-251):
"cheapest" target → cheapest record; otherwise fuzzy carrier match with a
fallback to exact identifier lookup on the upper-cased target. -/
def resolveTarget (mem : AgentMemory) (target : String) : Option FlightRecord :=
  if substrInStr "cheapest" target then find_cheapest_flight mem
  else
    match find_flight_by_airline mem target with
    | some r => some r
    | none => get_flight_by_id mem (strUpper target)

/-- A reply produced by one turn: either a fixed literal string, or the
output of the generation collaborator on the given context (the prose
itself is external; the context it is given is recorded). -/
inductive Reply where
  | fixed (s : String)
  | generated (context : String)

/-- The fixed clarification reply of `_handle_booking`. -/
def clarificationMsg : String :=
  "I could not identify the flight you wish to book. Please specify the airline name or flight ID from the search results."

/-- The fixed capability reply of the GENERAL branch of `handle_request`. -/
def capabilityMsg : String :=
  "I am a Travel Agent system. I can help you search for and book flights. How may I assist?"

/-- Observable outcome of `_handle_booking`: the reply, which record entity
resolution produced, the reservation-collaborator call (flight id and
passenger slot) if one happened, and whether the generator was invoked. -/
structure BookOutcome where
  reply : Reply
  resolved : Option FlightRecord
  commit_call : Option (String × JValue)
  gen_invoked : Bool

/-- The context string built on a successful booking (lines 260-267);
`pnr` is the confirmation code produced by the reservation collaborator,
whose status is always the literal `CONFIRMED` and which echoes the flight
id and passenger. -/
def bookingContext (r : FlightRecord) (passenger : JValue) (pnr : String) : String :=
  "Booking successful.\nAirline: " ++ r.airline ++ "\nFlight ID: " ++ r.flight_id ++
  "\nPassenger: " ++ pyStr passenger ++ "\nPNR: " ++ pnr ++ "\nStatus: CONFIRMED"

/-- Embedding of `TravelAgentSystem._handle_booking`. `pnr` stands for the externally
generated confirmation code. Raises (AttributeError) exactly when
`data.get("booking_target", "").lower()` does in Python. -/
def handle_booking (pnr : String) (mem : AgentMemory) (data : JValue) :
    Except PyError BookOutcome := do
  let targetRaw ← pyGet data "booking_target" (.str "")
  let target ← pyLower targetRaw
  let passenger ← pyGet data "passenger" (.str "Guest")
  match resolveTarget mem target with
  | none =>
      .ok { reply := .fixed clarificationMsg, resolved := none,
            commit_call := none, gen_invoked := false }
  | some r =>
      .ok { reply := .generated (bookingContext r passenger pnr),
            resolved := some r,
            commit_call := some (r.flight_id, passenger),
            gen_invoked := true }

/-- Embedding of `TravelAgentSystem._resolve_date`: falsy reference → today; otherwise
lower-case it; "tomorrow" substring → today + 1 day; "today" substring →
today; anything else → today. Raises when `.lower()` is called on a truthy
non-string. -/
def resolve_date (today : Date) (date_ref : JValue) : Except PyError String :=
  if pyFalsy date_ref then .ok (formatDate today)
  else do
    let dr ← pyLower date_ref
    let target_date :=
      if substrInStr "tomorrow" dr then today.nextDay
      else if substrInStr "today" dr then today
      else today
    .ok (formatDate target_date)

/-- The deterministic mock inventory returned by `_search_flight_inventory`
(the `"flights"` list, whatever the arguments). -/
def mock_flights : List RawOffer :=
  [ { flight_id := "BA-2847", airline := "British Airways",
      departure_time := "09:00 AM", price := "$420" },
    { flight_id := "AF-1923", airline := "Air France",
      departure_time := "02:00 PM", price := "$300" },
    { flight_id := "LH-5614", airline := "Lufthansa",
      departure_time := "08:00 PM", price := "$600" } ]

/-- Observable outcome of one whole turn of `handle_request`. -/
structure TurnResult where
  reply : Reply
  memory : AgentMemory
  commit_call : Option (String × JValue)
  gen_invoked : Bool

/-- One line of the search summary (line 230). -/
def flightLine (f : FlightRecord) : String :=
  "- " ++ f.airline ++ " (" ++ f.flight_id ++ "): " ++ f.raw_price ++ " at " ++ f.departure

/-- Newline-joined lines, embedding `"\n".join(...)`. -/
def joinLines : List String → String
  | [] => ""
  | [x] => x
  | x :: y :: t => x ++ "\n" ++ joinLines (y :: t)

/-- Embedding of `TravelAgentSystem._handle_search`: resolve the date, call the mock
inventory, replace the cache, and hand a summary context to the generator. -/
def handle_search (today : Date) (mem : AgentMemory) (data : JValue) :
    Except PyError TurnResult := do
  let origin ← pyGet data "origin" (.str "Unknown")
  let dest ← pyGet data "destination" (.str "Unknown")
  let date_ref ← pyGet data "date_reference" .null
  let travel_date ← resolve_date today date_ref
  let mem2 := update_cache mem mock_flights origin dest
  let flight_strings := mem2.flight_cache.map flightLine
  let context_str :=
    "Search completed for " ++ pyStr origin ++ " to " ++ pyStr dest ++ " on " ++
    travel_date ++ ". Found " ++ toString flight_strings.length ++ " options:\n" ++
    joinLines flight_strings
  .ok { reply := .generated context_str, memory := mem2,
        commit_call := none, gen_invoked := true }

/-- Outcome of the interpretation step, at the boundary of the `try` block
in `_extract_parameters`: either some exception was raised inside the block
(the service call failed, or `json.loads` rejected the fence-stripped text),
or `json.loads` succeeded and returned the value `v`. -/
inductive InterpOutcome where
  | exn
  | parsed (v : JValue)

/-- Embedding of `TravelAgentSystem._extract_parameters`: the parsed JSON value on
success, the fallback payload `{"intent": "GENERAL"}` on any exception. -/
def extract_parameters (outcome : InterpOutcome) : JValue :=
  match outcome with
  | .exn => .obj [("intent", .str "GENERAL")]
  | .parsed v => v

/-- Python `==` between a JSON-derived value and a string literal. -/
def isStrEq (v : JValue) (s : String) : Bool :=
  match v with
  | .str t => t == s
  | _ => false

/-- Embedding of `TravelAgentSystem.handle_request`: NLU extraction, then routing on the
intent. `today` is the current date, `pnr` the confirmation code the
reservation collaborator would mint this turn. -/
def handle_request (today : Date) (pnr : String) (mem : AgentMemory)
    (interp : InterpOutcome) : Except PyError TurnResult := do
  let nlu_data := extract_parameters interp
  let intent ← pyGet nlu_data "intent" (.str "GENERAL")
  if isStrEq intent "SEARCH" then
    handle_search today mem nlu_data
  else if isStrEq intent "BOOK" then do
    let out ← handle_booking pnr mem nlu_data
    .ok { reply := out.reply, memory := mem,
          commit_call := out.commit_call, gen_invoked := out.gen_invoked }
  else
    .ok { reply := .fixed capabilityMsg, memory := mem,
          commit_call := none, gen_invoked := false }

/-! ### Concrete sample values (used to instantiate the theorems) -/

/-- A record of a hypothetical earlier search, used to demonstrate that
cache replacement discards it. -/
def staleRecord : FlightRecord :=
  { flight_id := "ZZ-0001", airline := "Zephyr Air", price := 10,
    raw_price := "$10", departure := "07:00 AM",
    origin := .str "Rome", destination := .str "Oslo" }

/-- A memory state left over from an earlier search. -/
def staleMem : AgentMemory := { flight_cache := [staleRecord] }

/-- The memory state after searching London → Paris over the mock
inventory, starting from the stale state. -/
def sampleMem : AgentMemory :=
  update_cache staleMem mock_flights (.str "London") (.str "Paris")

/-- The British Airways record the sample search caches. -/
def sampleBA : FlightRecord :=
  { flight_id := "BA-2847", airline := "British Airways", price := 420,
    raw_price := "$420", departure := "09:00 AM",
    origin := .str "London", destination := .str "Paris" }

/-- The Air France record the sample search caches (the cheapest). -/
def sampleAF : FlightRecord :=
  { flight_id := "AF-1923", airline := "Air France", price := 300,
    raw_price := "$300", departure := "02:00 PM",
    origin := .str "London", destination := .str "Paris" }

/-- The Lufthansa record the sample search caches. -/
def sampleLH : FlightRecord :=
  { flight_id := "LH-5614", airline := "Lufthansa", price := 600,
    raw_price := "$600", departure := "08:00 PM",
    origin := .str "London", destination := .str "Paris" }

/-- The first mock offer, named for instantiations. -/
def offerBA : RawOffer :=
  { flight_id := "BA-2847", airline := "British Airways",
    departure_time := "09:00 AM", price := "$420" }

/-- An offer whose price display string has no digit at all. -/
def offerFree : RawOffer :=
  { flight_id := "XX-1", airline := "Xpress", departure_time := "10:00 AM",
    price := "free" }

/-! ### Helper lemmas -/

/-- The test `listStarts` decides the prefix relation. -/
theorem listStarts_iff (n h : List Char) :
    listStarts n h = true ↔ ∃ rest, h = n ++ rest := by
  induction n generalizing h with
  | nil => simp [listStarts]
  | cons a as ih =>
    cases h with
    | nil => simp [listStarts]
    | cons b bs =>
      simp only [listStarts, Bool.and_eq_true, beq_iff_eq, ih, List.cons_append,
        List.cons.injEq]
      constructor
      · rintro ⟨rfl, rest, rfl⟩
        exact ⟨rest, rfl, rfl⟩
      · rintro ⟨rest, rfl, rfl⟩
        exact ⟨rfl, rest, rfl⟩

/-- The test `substrIn` decides substring containment: `needle in hay` holds exactly
when `hay` splits as `l ++ needle ++ m`. -/
theorem substrIn_iff (n h : List Char) :
    substrIn n h = true ↔ ∃ l m, h = l ++ (n ++ m) := by
  induction h with
  | nil =>
    simp only [substrIn, List.isEmpty_iff]
    constructor
    · rintro rfl
      exact ⟨[], [], rfl⟩
    · rintro ⟨l, m, hl⟩
      rcases List.append_eq_nil.mp hl.symm with ⟨rfl, h2⟩
      exact (List.append_eq_nil.mp h2).1
  | cons c t ih =>
    simp only [substrIn, Bool.or_eq_true, listStarts_iff, ih]
    constructor
    · rintro (⟨rest, hr⟩ | ⟨l, m, rfl⟩)
      · exact ⟨[], rest, by simpa using hr⟩
      · exact ⟨c :: l, m, rfl⟩
    · rintro ⟨l, m, hl⟩
      cases l with
      | nil =>
        left
        exact ⟨m, by simpa using hl⟩
      | cons x xs =>
        right
        rcases List.cons.injEq .. ▸ hl with ⟨rfl, ht⟩
        exact ⟨xs, m, ht⟩

/-- The empty needle is contained in every haystack (as in Python). -/
theorem substrIn_nil (h : List Char) : substrIn [] h = true := by
  cases h with
  | nil => rfl
  | cons c t => simp [substrIn, listStarts]

/-- A successful `find?` splits the list at the first match. -/
theorem find?_eq_some_split {α : Type} (p : α → Bool) (l : List α) (r : α)
    (h : l.find? p = some r) :
    ∃ pre post, l = pre ++ r :: post ∧ p r = true ∧ ∀ x ∈ pre, p x = false := by
  induction l with
  | nil => simp [List.find?] at h
  | cons a t ih =>
    by_cases hpa : p a = true
    · rw [List.find?_cons_of_pos _ hpa] at h
      obtain rfl : a = r := by injection h
      exact ⟨[], t, rfl, hpa, by simp⟩
    · rw [List.find?_cons_of_neg _ hpa] at h
      obtain ⟨pre, post, rfl, hr, hpre⟩ := ih h
      refine ⟨a :: pre, post, rfl, hr, ?_⟩
      intro x hx
      rcases List.mem_cons.mp hx with rfl | hx2
      · simpa using hpa
      · exact hpre x hx2

/-- The running minimum of the price fold is an element of `h :: t`. -/
theorem foldl_cheap_mem (t : List TravelAgent.FlightRecord) (h : TravelAgent.FlightRecord) :
    t.foldl (fun best x => if x.price < best.price then x else best) h ∈ h :: t := by
  induction t generalizing h with
  | nil => simp
  | cons a t ih =>
    simp only [List.foldl_cons]
    by_cases hc : a.price < h.price
    · simp only [if_pos hc]
      exact List.mem_cons_of_mem _ (ih a)
    · simp only [if_neg hc]
      rcases List.mem_cons.mp (ih h) with he | ht
      · rw [he]
        exact List.mem_cons_self _ _
      · exact List.mem_cons_of_mem _ (List.mem_cons_of_mem _ ht)

/-- The running minimum of the price fold has minimal price in `h :: t`. -/
theorem foldl_cheap_le (t : List TravelAgent.FlightRecord) (h : TravelAgent.FlightRecord) :
    ∀ x ∈ h :: t,
      (t.foldl (fun best x => if x.price < best.price then x else best) h).price ≤ x.price := by
  induction t generalizing h with
  | nil =>
    intro x hx
    obtain rfl : x = h := by simpa using hx
    simp
  | cons a t ih =>
    intro x hx
    simp only [List.foldl_cons]
    by_cases hc : a.price < h.price
    · simp only [if_pos hc]
      rcases List.mem_cons.mp hx with he | hx2
      · rw [he]
        exact le_trans (ih a a (List.mem_cons_self a t)) (le_of_lt hc)
      · exact ih a x hx2
    · simp only [if_neg hc]
      push_neg at hc
      rcases List.mem_cons.mp hx with he | hx2
      · rw [he]
        exact ih h h (List.mem_cons_self h t)
      · rcases List.mem_cons.mp hx2 with he2 | hx3
        · rw [he2]
          exact le_trans (ih h h (List.mem_cons_self h t)) hc
        · exact ih h x (List.mem_cons_of_mem _ hx3)

/-- The running minimum of the price fold is the FIRST element of minimal
price: every element strictly before it is strictly more expensive. -/
theorem foldl_cheap_first (t : List TravelAgent.FlightRecord) (h : TravelAgent.FlightRecord) :
    ∃ pre post,
      h :: t = pre ++ (t.foldl (fun best x => if x.price < best.price then x else best) h) :: post ∧
      ∀ x ∈ pre,
        (t.foldl (fun best x => if x.price < best.price then x else best) h).price < x.price := by
  induction t generalizing h with
  | nil => exact ⟨[], [], rfl, by simp⟩
  | cons a t ih =>
    simp only [List.foldl_cons]
    by_cases hc : a.price < h.price
    · simp only [if_pos hc]
      obtain ⟨pre, post, heq, hpre⟩ := ih a
      refine ⟨h :: pre, post, ?_, ?_⟩
      · simp only [List.cons_append]
        exact congrArg (fun l => h :: l) heq
      · intro x hx
        rcases List.mem_cons.mp hx with he | hx2
        · rw [he]
          exact lt_of_le_of_lt (foldl_cheap_le t a a (List.mem_cons_self a t)) hc
        · exact hpre x hx2
    · simp only [if_neg hc]
      push_neg at hc
      obtain ⟨pre, post, heq, hpre⟩ := ih h
      obtain ⟨m, hm⟩ :
          ∃ m, t.foldl (fun best x => if x.price < best.price then x else best) h = m :=
        ⟨_, rfl⟩
      rw [hm] at heq hpre ⊢
      cases pre with
      | nil =>
        simp only [List.nil_append] at heq
        obtain ⟨hh, -⟩ := List.cons.inj heq
        refine ⟨[], a :: t, ?_, by simp⟩
        simp only [List.nil_append]
        rw [← hh]
      | cons q pre2 =>
        simp only [List.cons_append] at heq
        obtain ⟨hh, ht⟩ := List.cons.inj heq
        have hmh : m.price < h.price := by
          rw [hh]
          exact hpre q (List.mem_cons_self q pre2)
        refine ⟨h :: a :: pre2, post, ?_, ?_⟩
        · simp only [List.cons_append]
          exact congrArg (fun l => h :: a :: l) ht
        · intro x hx
          rcases List.mem_cons.mp hx with he | hx2
          · rw [he]
            exact hmh
          · rcases List.mem_cons.mp hx2 with he2 | hx3
            · rw [he2]
              exact lt_of_lt_of_le hmh hc
            · exact hpre x (List.mem_cons_of_mem _ hx3)

/-- Left fold of the decimal accumulator, expressed through `Nat.ofDigits`. -/
theorem foldl_digits_eq (ds : List Char) (acc : Nat) :
    ds.foldl (fun a c => a * 10 + TravelAgent.digitVal c) acc =
      Nat.ofDigits 10 ((ds.map TravelAgent.digitVal).reverse) + acc * 10 ^ ds.length := by
  induction ds generalizing acc with
  | nil => simp [Nat.ofDigits]
  | cons c t ih =>
    simp only [List.foldl_cons, List.map_cons, List.reverse_cons, List.length_cons]
    rw [ih, Nat.ofDigits_append]
    simp only [Nat.ofDigits, List.length_reverse, List.length_map]
    push_cast
    ring

/-- The value `digitsToNat ds` is the numeral denoted by the digit list, most significant
first. -/
theorem digitsToNat_eq_ofDigits (ds : List Char) :
    TravelAgent.digitsToNat ds = Nat.ofDigits 10 ((ds.map TravelAgent.digitVal).reverse) := by
  have := foldl_digits_eq ds 0
  simpa [TravelAgent.digitsToNat] using this

/-! ### Claim theorems -/

/-- C3: for every query and cache contents, `find_flight_by_airline`
returns the first record in cache order whose carrier name, lower-cased
with space characters removed, contains the lower-cased space-stripped
query as a substring; it returns nothing exactly when no cached record
matches (in particular on an empty cache). -/
theorem find_flight_by_airline_spec (mem : AgentMemory) (q : String) :
    (find_flight_by_airline mem q = none ↔
      ∀ x ∈ mem.flight_cache,
        ¬ ∃ l m, normalizeName x.airline = l ++ (normalizeName q ++ m)) ∧
    (∀ r, find_flight_by_airline mem q = some r →
      (∃ l m, normalizeName r.airline = l ++ (normalizeName q ++ m)) ∧
      ∃ pre post, mem.flight_cache = pre ++ r :: post ∧
        ∀ x ∈ pre,
          ¬ ∃ l m, normalizeName x.airline = l ++ (normalizeName q ++ m)) := by
  constructor
  · rw [find_flight_by_airline, List.find?_eq_none]
    constructor
    · intro hall x hx hex
      have h1 := hall x hx
      exact h1 ((substrIn_iff _ _).mpr hex)
    · intro hall x hx hp
      exact hall x hx ((substrIn_iff _ _).mp hp)
  · intro r hr
    rw [find_flight_by_airline] at hr
    obtain ⟨pre, post, hsplit, hpr, hpre⟩ := find?_eq_some_split _ _ _ hr
    refine ⟨(substrIn_iff _ _).mp hpr, pre, post, hsplit, ?_⟩
    intro x hx hex
    have h2 := (substrIn_iff _ _).mpr hex
    simp [hpre x hx] at h2

/-- Witness for C3: on the sample cache, querying "air" returns the British
Airways record (first match in cache order — "airways" contains "air"),
with the matching split exhibited. -/
theorem find_flight_by_airline_spec_witness :
    (∃ l m, normalizeName sampleBA.airline = l ++ (normalizeName "air" ++ m)) ∧
    ∃ pre post, sampleMem.flight_cache = pre ++ sampleBA :: post ∧
      ∀ x ∈ pre,
        ¬ ∃ l m, normalizeName x.airline = l ++ (normalizeName "air" ++ m) :=
  (find_flight_by_airline_spec sampleMem "air").2 sampleBA rfl

/-- C4: on a nonempty cache `find_cheapest_flight` returns a record of
minimal price, and among equal minimal prices the earliest in cache order
(every earlier record is strictly more expensive); on an empty cache it
returns nothing. -/
theorem find_cheapest_flight_spec (mem : AgentMemory) :
    (mem.flight_cache = [] → find_cheapest_flight mem = none) ∧
    (∀ r, find_cheapest_flight mem = some r →
      r ∈ mem.flight_cache ∧
      (∀ x ∈ mem.flight_cache, r.price ≤ x.price) ∧
      ∃ pre post, mem.flight_cache = pre ++ r :: post ∧
        ∀ x ∈ pre, r.price < x.price) := by
  constructor
  · intro h
    simp [find_cheapest_flight, h]
  · intro r hr
    rw [find_cheapest_flight] at hr
    cases hcache : mem.flight_cache with
    | nil =>
      rw [hcache] at hr
      cases hr
    | cons h t =>
      rw [hcache] at hr
      obtain rfl : t.foldl (fun best x => if x.price < best.price then x else best) h = r := by
        injection hr
      exact ⟨foldl_cheap_mem t h, foldl_cheap_le t h, foldl_cheap_first t h⟩

/-- Witness for C4: the empty cache yields nothing, and on the sample cache
(prices 420, 300, 600) the 300-priced Air France record is returned, is
minimal, and every earlier record is strictly more expensive. -/
theorem find_cheapest_flight_spec_witness :
    find_cheapest_flight { flight_cache := [] } = none ∧
    (sampleAF ∈ sampleMem.flight_cache ∧
      (∀ x ∈ sampleMem.flight_cache, sampleAF.price ≤ x.price) ∧
      ∃ pre post, sampleMem.flight_cache = pre ++ sampleAF :: post ∧
        ∀ x ∈ pre, sampleAF.price < x.price) :=
  ⟨(find_cheapest_flight_spec { flight_cache := [] }).1 rfl,
   (find_cheapest_flight_spec sampleMem).2 sampleAF rfl⟩

/-- C6: for every price display string handed to `update_cache` in position
`i`, the stored record in the same position carries, as its price, the
numeral denoted by the string's digit characters concatenated in order
(via `Nat.ofDigits`, least-significant digit first after reversal) when a
digit exists, and exactly the sentinel 999999 when none does; the
replacement succeeds for every record either way (same length). -/
theorem update_cache_price_parsing (mem : AgentMemory) (raws : List RawOffer)
    (origin dest : JValue) (i : Nat) (f : RawOffer)
    (hf : raws[i]? = some f) :
    (update_cache mem raws origin dest).flight_cache.length = raws.length ∧
    ∃ rec, (update_cache mem raws origin dest).flight_cache[i]? = some rec ∧
      (digitsOf f.price ≠ [] →
        rec.price =
          Nat.ofDigits 10 (((f.price.data.filter Char.isDigit).map digitVal).reverse)) ∧
      (digitsOf f.price = [] → rec.price = 999999) := by
  refine ⟨by simp [update_cache], buildRecord origin dest f, ?_, ?_, ?_⟩
  · simp [update_cache, List.getElem?_map, hf]
  · intro hds
    have hne : (digitsOf f.price).isEmpty = false := by
      cases hd : digitsOf f.price with
      | nil => exact absurd hd hds
      | cons c cs => rfl
    show parsePrice f.price = _
    rw [parsePrice]
    simp only [hne, Bool.false_eq_true, if_false]
    exact digitsToNat_eq_ofDigits _
  · intro hds
    show parsePrice f.price = 999999
    rw [parsePrice]
    simp [hds]

/-- Witness for C6: parsing the mock offer "$420" (position 0) yields 420,
and a digit-free price string yields the sentinel 999999. -/
theorem update_cache_price_parsing_witness :
    ((update_cache staleMem mock_flights (.str "London") (.str "Paris")).flight_cache.length
        = mock_flights.length ∧
      ∃ rec,
        (update_cache staleMem mock_flights (.str "London") (.str "Paris")).flight_cache[0]?
          = some rec ∧
        (digitsOf offerBA.price ≠ [] →
          rec.price =
            Nat.ofDigits 10 (((offerBA.price.data.filter Char.isDigit).map digitVal).reverse)) ∧
        (digitsOf offerBA.price = [] → rec.price = 999999)) ∧
    ((update_cache staleMem [offerFree] (.str "A") (.str "B")).flight_cache.length
        = [offerFree].length ∧
      ∃ rec,
        (update_cache staleMem [offerFree] (.str "A") (.str "B")).flight_cache[0]?
          = some rec ∧
        (digitsOf offerFree.price ≠ [] →
          rec.price =
            Nat.ofDigits 10 (((offerFree.price.data.filter Char.isDigit).map digitVal).reverse)) ∧
        (digitsOf offerFree.price = [] → rec.price = 999999)) :=
  ⟨update_cache_price_parsing staleMem mock_flights (.str "London") (.str "Paris") 0 offerBA rfl,
   update_cache_price_parsing staleMem [offerFree] (.str "A") (.str "B") 0 offerFree rfl⟩

/-- Auxiliary: a record produced by `find_cheapest_flight` is a cache
member. -/
theorem find_cheapest_flight_mem (mem : AgentMemory) (r : FlightRecord)
    (h : find_cheapest_flight mem = some r) : r ∈ mem.flight_cache := by
  rw [find_cheapest_flight] at h
  cases hcache : mem.flight_cache with
  | nil =>
    rw [hcache] at h
    cases h
  | cons a t =>
    rw [hcache] at h
    obtain rfl : t.foldl (fun best x => if x.price < best.price then x else best) a = r := by
      injection h
    exact foldl_cheap_mem t a

/-- C1: after `update_cache(raws, origin, dest)` on any prior memory state,
every record returned by `find_cheapest_flight`, `find_flight_by_airline`
or `get_flight_by_id` is one of the records built from `raws`; no record
of the earlier state can be returned, since the cache holds exactly the
newly built records. -/
theorem update_cache_total_replacement (mem : AgentMemory) (raws : List RawOffer)
    (origin dest : JValue) (q fid : String) (r : FlightRecord) :
    (find_cheapest_flight (update_cache mem raws origin dest) = some r →
      r ∈ raws.map (buildRecord origin dest)) ∧
    (find_flight_by_airline (update_cache mem raws origin dest) q = some r →
      r ∈ raws.map (buildRecord origin dest)) ∧
    (get_flight_by_id (update_cache mem raws origin dest) fid = some r →
      r ∈ raws.map (buildRecord origin dest)) := by
  refine ⟨?_, ?_, ?_⟩
  · intro h
    exact find_cheapest_flight_mem _ _ h
  · intro h
    exact List.mem_of_find?_eq_some h
  · intro h
    exact List.mem_of_find?_eq_some h

/-- Witness for C1: starting from a stale memory holding a cheap 10-priced
record, replacing the cache with the mock offers makes the three queries
return only newly built records — the cheapest is now Air France (300),
"luft" resolves to Lufthansa, and "BA-2847" to British Airways. -/
theorem update_cache_total_replacement_witness :
    sampleAF ∈ mock_flights.map (buildRecord (.str "London") (.str "Paris")) ∧
    sampleLH ∈ mock_flights.map (buildRecord (.str "London") (.str "Paris")) ∧
    sampleBA ∈ mock_flights.map (buildRecord (.str "London") (.str "Paris")) :=
  ⟨(update_cache_total_replacement staleMem mock_flights (.str "London") (.str "Paris")
      "luft" "BA-2847" sampleAF).1 rfl,
   (update_cache_total_replacement staleMem mock_flights (.str "London") (.str "Paris")
      "luft" "BA-2847" sampleLH).2.1 rfl,
   (update_cache_total_replacement staleMem mock_flights (.str "London") (.str "Paris")
      "luft" "BA-2847" sampleBA).2.2 rfl⟩

/-- C7: `_resolve_date` returns the current date for a null/absent
reference; the next day when the reference contains "tomorrow"
(case-insensitively, i.e. after lower-casing); the current date when it
contains "today" but not "tomorrow"; and the current date for any other
string — always formatted year-month-day. -/
theorem resolve_date_spec (today : Date) (s : String) :
    resolve_date today .null = .ok (formatDate today) ∧
    (substrInStr "tomorrow" (strLower s) = true →
      resolve_date today (.str s) = .ok (formatDate today.nextDay)) ∧
    (substrInStr "tomorrow" (strLower s) = false →
      substrInStr "today" (strLower s) = true →
      resolve_date today (.str s) = .ok (formatDate today)) ∧
    (substrInStr "tomorrow" (strLower s) = false →
      substrInStr "today" (strLower s) = false →
      resolve_date today (.str s) = .ok (formatDate today)) := by
  have hstep : pyFalsy (.str s) = false →
      resolve_date today (.str s) =
        .ok (formatDate
          (if substrInStr "tomorrow" (strLower s) then today.nextDay
           else if substrInStr "today" (strLower s) then today else today)) := by
    intro hfal
    rw [resolve_date, if_neg (by simp [hfal])]
    rfl
  refine ⟨rfl, ?_, ?_, ?_⟩
  · intro h1
    have hfal : pyFalsy (.str s) = false := by
      cases hs : s.data with
      | nil =>
        exfalso
        rw [show strLower s = ⟨[]⟩ from by simp [strLower, hs]] at h1
        exact absurd h1 (by decide)
      | cons c t => simp [pyFalsy, hs]
    rw [hstep hfal, if_pos h1]
  · intro h1 h2
    have hfal : pyFalsy (.str s) = false := by
      cases hs : s.data with
      | nil =>
        exfalso
        rw [show strLower s = ⟨[]⟩ from by simp [strLower, hs]] at h2
        exact absurd h2 (by decide)
      | cons c t => simp [pyFalsy, hs]
    rw [hstep hfal, if_neg (by simp [h1]), if_pos h2]
  · intro h1 h2
    by_cases hfal : pyFalsy (.str s) = true
    · rw [resolve_date, if_pos (by simp [hfal])]
    · simp only [Bool.not_eq_true] at hfal
      rw [hstep hfal, if_neg (by simp [h1]), if_neg (by simp [h2])]

/-- Witness for C7: with today = 2024-01-10, a null reference yields
"2024-01-10", "toMORrow" yields "2024-01-11", "today" yields "2024-01-10",
and the unrecognized "next Monday" also yields "2024-01-10". -/
theorem resolve_date_spec_witness :
    resolve_date ⟨2024, 1, 10⟩ .null = .ok (formatDate ⟨2024, 1, 10⟩) ∧
    resolve_date ⟨2024, 1, 10⟩ (.str "toMORrow") = .ok (formatDate (Date.nextDay ⟨2024, 1, 10⟩)) ∧
    resolve_date ⟨2024, 1, 10⟩ (.str "today") = .ok (formatDate ⟨2024, 1, 10⟩) ∧
    resolve_date ⟨2024, 1, 10⟩ (.str "next Monday") = .ok (formatDate ⟨2024, 1, 10⟩) :=
  ⟨(resolve_date_spec ⟨2024, 1, 10⟩ "x").1,
   (resolve_date_spec ⟨2024, 1, 10⟩ "toMORrow").2.1 (by decide),
   (resolve_date_spec ⟨2024, 1, 10⟩ "today").2.2.1 (by decide) (by decide),
   (resolve_date_spec ⟨2024, 1, 10⟩ "next Monday").2.2.2 (by decide) (by decide)⟩

/-- Auxiliary: once the target slot lower-cases successfully to `t`,
`_handle_booking` is the case split on `resolveTarget`. -/
theorem handle_booking_eq (pnr : String) (mem : AgentMemory)
    (fields : List (String × JValue)) (t : String)
    (htarget : pyLower ((jlookup fields "booking_target").getD (.str "")) = .ok t) :
    handle_booking pnr mem (.obj fields) =
      (match resolveTarget mem t with
       | none =>
           .ok { reply := .fixed clarificationMsg, resolved := none,
                 commit_call := none, gen_invoked := false }
       | some r =>
           .ok { reply := .generated
                   (bookingContext r ((jlookup fields "passenger").getD (.str "Guest")) pnr),
                 resolved := some r,
                 commit_call := some (r.flight_id, (jlookup fields "passenger").getD (.str "Guest")),
                 gen_invoked := true }) := by
  have hred : handle_booking pnr mem (.obj fields) =
      Except.bind (pyLower ((jlookup fields "booking_target").getD (.str "")))
        (fun target =>
          match resolveTarget mem target with
          | none =>
              .ok { reply := .fixed clarificationMsg, resolved := none,
                    commit_call := none, gen_invoked := false }
          | some r =>
              .ok { reply := .generated
                      (bookingContext r ((jlookup fields "passenger").getD (.str "Guest")) pnr),
                    resolved := some r,
                    commit_call := some (r.flight_id, (jlookup fields "passenger").getD (.str "Guest")),
                    gen_invoked := true }) := rfl
  rw [hred, htarget]
  rfl

/-- C2: for every BOOK payload whose booking-target slot is the string `s`
(lower-cased to `target`), the handler succeeds, and the record it books is
the one `find_cheapest_flight` returns when `target` contains "cheapest";
otherwise it is the one `find_flight_by_airline target` returns, and only
when that finds nothing is it the one `get_flight_by_id` returns on the
upper-cased target. -/
theorem handle_booking_target_resolution (pnr : String) (mem : AgentMemory)
    (fields : List (String × JValue)) (s : String)
    (hslot : jlookup fields "booking_target" = some (.str s)) :
    ∃ out, handle_booking pnr mem (.obj fields) = .ok out ∧
      (substrInStr "cheapest" (strLower s) = true →
        out.resolved = find_cheapest_flight mem) ∧
      (substrInStr "cheapest" (strLower s) = false →
        (∀ r, find_flight_by_airline mem (strLower s) = some r → out.resolved = some r) ∧
        (find_flight_by_airline mem (strLower s) = none →
          out.resolved = get_flight_by_id mem (strUpper (strLower s)))) := by
  have htg : pyLower ((jlookup fields "booking_target").getD (.str "")) = .ok (strLower s) := by
    rw [hslot]
    rfl
  cases hres : resolveTarget mem (strLower s) with
  | none =>
    refine ⟨{ reply := .fixed clarificationMsg, resolved := none,
              commit_call := none, gen_invoked := false }, ?_, ?_, ?_⟩
    · rw [handle_booking_eq pnr mem fields (strLower s) htg, hres]
    · intro hch
      have hc := hres
      rw [resolveTarget, if_pos hch] at hc
      exact hc.symm
    · intro hch
      have hc := hres
      rw [resolveTarget, if_neg (by simp [hch])] at hc
      constructor
      · intro r hr
        rw [hr] at hc
        simp at hc
      · intro hfz
        rw [hfz] at hc
        exact hc.symm
  | some r =>
    refine ⟨{ reply := .generated
                (bookingContext r ((jlookup fields "passenger").getD (.str "Guest")) pnr),
              resolved := some r,
              commit_call := some (r.flight_id, (jlookup fields "passenger").getD (.str "Guest")),
              gen_invoked := true }, ?_, ?_, ?_⟩
    · rw [handle_booking_eq pnr mem fields (strLower s) htg, hres]
    · intro hch
      have hc := hres
      rw [resolveTarget, if_pos hch] at hc
      exact hc.symm
    · intro hch
      have hc := hres
      rw [resolveTarget, if_neg (by simp [hch])] at hc
      constructor
      · intro r2 hr2
        rw [hr2] at hc
        simp at hc
        simp [hc]
      · intro hfz
        rw [hfz] at hc
        exact hc.symm

/-- Witness for C2: booking "Cheapest please" on the sample cache resolves
through `find_cheapest_flight`, and the cheapest-free branch is vacuous. -/
theorem handle_booking_target_resolution_witness :
    ∃ out, handle_booking "PNR001" sampleMem
        (.obj [("booking_target", JValue.str "Cheapest please")]) = .ok out ∧
      (substrInStr "cheapest" (strLower "Cheapest please") = true →
        out.resolved = find_cheapest_flight sampleMem) ∧
      (substrInStr "cheapest" (strLower "Cheapest please") = false →
        (∀ r, find_flight_by_airline sampleMem (strLower "Cheapest please") = some r →
          out.resolved = some r) ∧
        (find_flight_by_airline sampleMem (strLower "Cheapest please") = none →
          out.resolved = get_flight_by_id sampleMem (strUpper (strLower "Cheapest please")))) :=
  handle_booking_target_resolution "PNR001" sampleMem
    [("booking_target", JValue.str "Cheapest please")] "Cheapest please" rfl

/-- C5: for every BOOK payload whose entity resolution yields no record,
the handler returns the fixed clarification message and invokes neither the
reservation-commit collaborator nor the generation service. -/
theorem handle_booking_unresolved_clarifies (pnr : String) (mem : AgentMemory)
    (fields : List (String × JValue)) (t : String)
    (htarget : pyLower ((jlookup fields "booking_target").getD (.str "")) = .ok t)
    (hres : resolveTarget mem t = none) :
    handle_booking pnr mem (.obj fields) =
      .ok { reply := .fixed clarificationMsg, resolved := none,
            commit_call := none, gen_invoked := false } := by
  rw [handle_booking_eq pnr mem fields t htarget, hres]

/-- Witness for C5: booking "Delta" on the sample cache (no such carrier,
not a cached identifier) yields the clarification reply with no commit call
and no generation call. -/
theorem handle_booking_unresolved_clarifies_witness :
    handle_booking "PNR002" sampleMem (.obj [("booking_target", JValue.str "Delta")]) =
      .ok { reply := .fixed clarificationMsg, resolved := none,
            commit_call := none, gen_invoked := false } :=
  handle_booking_unresolved_clarifies "PNR002" sampleMem
    [("booking_target", JValue.str "Delta")] "delta" rfl rfl

/-- C9: for every BOOK payload with no booking-target key at all and a
non-empty cache, the target defaults to the empty string, whose normalized
form matches every carrier, so the first cached record is booked: the
reservation collaborator is called with its identifier and the reply is the
generated booking confirmation, not the clarification message. -/
theorem handle_booking_absent_target_books_first (pnr : String) (mem : AgentMemory)
    (fields : List (String × JValue)) (r : FlightRecord) (rest : List FlightRecord)
    (habs : jlookup fields "booking_target" = none)
    (hcache : mem.flight_cache = r :: rest) :
    handle_booking pnr mem (.obj fields) =
      .ok { reply := .generated
              (bookingContext r ((jlookup fields "passenger").getD (.str "Guest")) pnr),
            resolved := some r,
            commit_call := some (r.flight_id, (jlookup fields "passenger").getD (.str "Guest")),
            gen_invoked := true } := by
  have htg : pyLower ((jlookup fields "booking_target").getD (.str "")) = .ok "" := by
    rw [habs]
    rfl
  have hfuzzy : find_flight_by_airline mem "" = some r := by
    rw [find_flight_by_airline, hcache]
    exact List.find?_cons_of_pos _ (substrIn_nil _)
  have hres : resolveTarget mem "" = some r := by
    rw [resolveTarget, if_neg (by decide), hfuzzy]
  rw [handle_booking_eq pnr mem fields "" htg, hres]

/-- Witness for C9: a BOOK payload carrying only a passenger name, on the
sample cache, books the first cached record (British Airways) for that
passenger. -/
theorem handle_booking_absent_target_books_first_witness :
    handle_booking "PNR003" sampleMem (.obj [("passenger", JValue.str "Robin")]) =
      .ok { reply := .generated (bookingContext sampleBA (JValue.str "Robin") "PNR003"),
            resolved := some sampleBA,
            commit_call := some (sampleBA.flight_id, JValue.str "Robin"),
            gen_invoked := true } :=
  handle_booking_absent_target_books_first "PNR003" sampleMem
    [("passenger", JValue.str "Robin")] sampleBA [sampleAF, sampleLH] rfl rfl

/-- C8 (amended): on a service exception or a response whose fence-stripped
text fails JSON parsing — everything the `try` block of
`_extract_parameters` can catch — the extraction step raises nothing,
yields exactly the payload `{"intent": "GENERAL"}`, and the turn is routed
to the fixed capability reply with no collaborator invoked and memory
untouched. (A response that parses as JSON is returned unchanged; see the
counterexample for a parsed non-object payload.) -/
theorem extract_parameters_failsoft (today : Date) (pnr : String) (mem : AgentMemory) :
    extract_parameters .exn = .obj [("intent", .str "GENERAL")] ∧
    handle_request today pnr mem .exn =
      .ok { reply := .fixed capabilityMsg, memory := mem,
            commit_call := none, gen_invoked := false } :=
  ⟨rfl, rfl⟩

/-- Counterexample to C8 as stated: when the interpretation service returns
the valid-JSON text "[]", `json.loads` succeeds, `_extract_parameters`
passes the array through unchanged — its intent is NOT GENERAL (the intent
lookup itself raises) — and `handle_request` propagates an AttributeError
instead of routing to the capability reply. -/
theorem extract_parameters_nonobject_cex :
    extract_parameters (.parsed (.arr [])) = .arr [] ∧
    ¬ (pyGet (extract_parameters (.parsed (.arr []))) "intent" (.str "GENERAL") =
        .ok (.str "GENERAL")) ∧
    handle_request ⟨2024, 1, 10⟩ "PNR004" { flight_cache := [] } (.parsed (.arr [])) =
      .error .attributeError :=
  ⟨rfl, by simp [extract_parameters, pyGet], rfl⟩

/-- C10: a BOOK payload in which the booking-target key is present with a
null value makes `handle_request` raise: `data.get("booking_target", "")`
returns `None` (the key is present, so the default is not used),
`None.lower()` raises AttributeError, and the exception propagates to the
caller of `handle_request` — no reply of any kind is produced. -/
theorem handle_request_null_target_raises (today : Date) (pnr : String)
    (mem : AgentMemory) (fields : List (String × JValue))
    (hintent : jlookup fields "intent" = some (.str "BOOK"))
    (htarget : jlookup fields "booking_target" = some .null) :
    handle_request today pnr mem (.parsed (.obj fields)) = .error .attributeError := by
  have hred : handle_request today pnr mem (.parsed (.obj fields)) =
      Except.bind (Except.ok ((jlookup fields "intent").getD (.str "GENERAL")))
        (fun intent =>
          if isStrEq intent "SEARCH" then
            handle_search today mem (.obj fields)
          else if isStrEq intent "BOOK" then
            Except.bind (handle_booking pnr mem (.obj fields))
              (fun out =>
                .ok { reply := out.reply, memory := mem,
                      commit_call := out.commit_call, gen_invoked := out.gen_invoked })
          else
            .ok { reply := .fixed capabilityMsg, memory := mem,
                  commit_call := none, gen_invoked := false }) := rfl
  rw [hred, hintent]
  have hbook : handle_booking pnr mem (.obj fields) = .error .attributeError := by
    have hbred : handle_booking pnr mem (.obj fields) =
        Except.bind (pyLower ((jlookup fields "booking_target").getD (.str "")))
          (fun target =>
            match resolveTarget mem target with
            | none =>
                .ok { reply := .fixed clarificationMsg, resolved := none,
                      commit_call := none, gen_invoked := false }
            | some r =>
                .ok { reply := .generated
                        (bookingContext r ((jlookup fields "passenger").getD (.str "Guest")) pnr),
                      resolved := some r,
                      commit_call := some (r.flight_id,
                        (jlookup fields "passenger").getD (.str "Guest")),
                      gen_invoked := true }) := rfl
    rw [hbred, htarget]
    rfl
  show Except.bind (handle_booking pnr mem (.obj fields))
      (fun out =>
        (.ok { reply := out.reply, memory := mem,
               commit_call := out.commit_call,
               gen_invoked := out.gen_invoked } : Except PyError TurnResult)) =
    .error .attributeError
  rw [hbook]
  rfl

/-- Witness for C10: the concrete payload
`{"intent": "BOOK", "booking_target": null}` makes `handle_request` raise
AttributeError. -/
theorem handle_request_null_target_raises_witness :
    handle_request ⟨2024, 1, 10⟩ "PNR005" sampleMem
        (.parsed (.obj [("intent", JValue.str "BOOK"), ("booking_target", JValue.null)])) =
      .error .attributeError :=
  handle_request_null_target_raises ⟨2024, 1, 10⟩ "PNR005" sampleMem
    [("intent", JValue.str "BOOK"), ("booking_target", JValue.null)] rfl rfl

end TravelAgent
